import Mathlib

/-!
Verification of the exponential growth-rate calibration and greedy
allocation core of the Dark Souls stat/souls tracking tool
(`ds_stat_soul_tool_gui.py`): `compute_common_r`, `continuous_targets`
and `greedy_next_stat_to_increment`.

Python dicts are modelled as insertion-ordered association lists
(`StatMap`); Python float arithmetic is idealised as real arithmetic.
Python's `max(items, key=...)` keeps the first element and replaces it
only when a strictly larger key appears; dict indexing `m[k]` raises
`KeyError` on a missing key, modelled by `Option`.
-/

namespace DSTool

/-- A Python dict from stat name to numeric value, as an ordered
association list. -/
abbrev StatMap := List (String × ℝ)

/-- Python dict indexing `m[k]`: the value of the first entry whose key
is `k`, or `none` (a `KeyError`) when no entry has key `k`. -/
def dictGet (m : StatMap) (k : String) : Option ℝ :=
  (m.find? fun kv => kv.1 == k).map Prod.snd

/-- Embeds `compute_common_r(N0_values, L)`: returns `0.0` when
`L <= 0` or when the sum `S0` of the values is `<= 0`, and otherwise
`log(1 + L / S0) / L`. -/
noncomputable def compute_common_r (N0_values : List ℝ) (L : ℤ) : ℝ :=
  if L ≤ 0 then 0
  else
    if N0_values.sum ≤ 0 then 0
    else Real.log (1 + (L : ℝ) / N0_values.sum) / (L : ℝ)

/-- Embeds `continuous_targets(N0_map, r, t)`: the map sending each
entry `(k, v)` to `(k, v * exp(r * t))`. -/
noncomputable def continuous_targets (N0_map : StatMap) (r t : ℝ) : StatMap :=
  N0_map.map fun kv => (kv.1, kv.2 * Real.exp (r * t))

/-- The comparison Python uses on the key tuples
`(deficit, base value, stat name)`: lexicographic on the three
components, strings ordered by code points. -/
def tripLt (a b : ℝ × ℝ × String) : Prop :=
  a.1 < b.1 ∨ (a.1 = b.1 ∧ (a.2.1 < b.2.1 ∨ (a.2.1 = b.2.1 ∧ a.2.2 < b.2.2)))

noncomputable instance (a b : ℝ × ℝ × String) : Decidable (tripLt a b) := by
  unfold tripLt; infer_instance

/-- The key function `lambda x: (x[1], N0_map[x[0]], x[0])` used in the
`max` call; `N0_map[x[0]]` is total there because the deficits dict is
built from the keys of `N0_map` (the default `0` is never reached). -/
def statKey (N0_map : StatMap) (x : String × ℝ) : ℝ × ℝ × String :=
  (x.2, (dictGet N0_map x.1).getD 0, x.1)

/-- Python's `max(x :: xs, key=f)`: fold that replaces the current
maximum only when a strictly larger key appears, so the first element
wins all ties. -/
noncomputable def pymaxBy (f : String × ℝ → ℝ × ℝ × String) (x : String × ℝ)
    (xs : List (String × ℝ)) : String × ℝ :=
  xs.foldl (fun acc y => if tripLt (f acc) (f y) then y else acc) x

/-- The dict comprehension
`{k: S[k] - current_map[k] for k in N0_map}`: iterates the keys of
`N0_map` in order, failing (`KeyError`) when `S` or `current_map` lacks
a key. -/
def deficits_of : StatMap → StatMap → StatMap → Option StatMap
  | [], _, _ => some []
  | kv :: rest, S, current =>
    match dictGet S kv.1, dictGet current kv.1 with
    | some sv, some cv =>
      (deficits_of rest S current).map fun ds => (kv.1, sv - cv) :: ds
    | _, _ => none

/-- Embeds `greedy_next_stat_to_increment(N0_map, current_map, L, t)`:
computes `r`, the continuous targets at `t`, the deficit dict, and the
`max` of the deficit items under the key
`(deficit, base value, stat name)`; returns `none` where the Python
raises (missing key in `current_map`, or `max` over an empty dict). -/
noncomputable def greedy_next_stat_to_increment (N0_map current_map : StatMap)
    (L t : ℤ) : Option (String × StatMap × ℝ) :=
  let r := compute_common_r (N0_map.map Prod.snd) L
  let S := continuous_targets N0_map r (t : ℝ)
  match deficits_of N0_map S current_map with
  | none => none
  | some [] => none
  | some (d :: ds) => some ((pymaxBy (statKey N0_map) d ds).1, d :: ds, r)

/-- A call frame for `greedy_next_stat_to_increment`: the values of the
two dict arguments after the call, paired with the returned value.  The
source body only reads its arguments (its dicts are built by fresh
comprehensions), so the arguments pass through unchanged. -/
noncomputable def greedy_call (N0_map current_map : StatMap) (L t : ℤ) :
    (StatMap × StatMap) × Option (String × StatMap × ℝ) :=
  ((N0_map, current_map), greedy_next_stat_to_increment N0_map current_map L t)

/-- Helper: the calibrated rate is never negative, whatever the inputs. -/
lemma compute_common_r_nonneg (values : List ℝ) (L : ℤ) :
    0 ≤ compute_common_r values L := by
  unfold compute_common_r
  split_ifs with hL hS
  · exact le_refl 0
  · exact le_refl 0
  · push_neg at hL hS
    have hL' : (0 : ℝ) < (L : ℝ) := by exact_mod_cast hL
    have hdiv : 0 ≤ (L : ℝ) / values.sum := le_of_lt (div_pos hL' hS)
    exact div_nonneg (Real.log_nonneg (by linarith)) (le_of_lt hL')

/-- Helper: the calibrated rate is strictly positive on a positive
horizon and a positive base-value sum. -/
lemma compute_common_r_pos (values : List ℝ) (L : ℤ) (hL : 0 < L)
    (hS : 0 < values.sum) : 0 < compute_common_r values L := by
  unfold compute_common_r
  rw [if_neg (by omega), if_neg (not_le.mpr hS)]
  have hL' : (0 : ℝ) < (L : ℝ) := by exact_mod_cast hL
  exact div_pos (Real.log_pos (by nlinarith [div_pos hL' hS])) hL'

/-- Helper: the closed form of the rate away from the guards. -/
lemma compute_common_r_eq (values : List ℝ) (L : ℤ) (hL : 0 < L)
    (hS : 0 < values.sum) :
    compute_common_r values L = Real.log (1 + (L : ℝ) / values.sum) / (L : ℝ) := by
  unfold compute_common_r
  rw [if_neg (by omega), if_neg (not_le.mpr hS)]

/-- Helper: indexing the target map is indexing the base map followed by
the exponential scaling. -/
lemma dictGet_continuous_targets (m : StatMap) (r t : ℝ) (k : String) :
    dictGet (continuous_targets m r t) k =
      (dictGet m k).map fun v => v * Real.exp (r * t) := by
  induction m with
  | nil => rfl
  | cons kv rest ih =>
    by_cases h : kv.1 == k
    · simp [dictGet, continuous_targets, h]
    · simp only [dictGet, continuous_targets, List.map_cons] at ih ⊢
      simp [h]
      rfl

/-- Helper: a dict lookup succeeds exactly when the key occurs in the
key list. -/
lemma dictGet_isSome_iff (m : StatMap) (k : String) :
    (dictGet m k).isSome ↔ k ∈ m.map Prod.fst := by
  unfold dictGet
  cases hf : m.find? fun kv => kv.1 == k with
  | none =>
    simp only [Option.map_none', Option.isSome_none, Bool.false_eq_true, false_iff]
    intro hmem
    have hex : ∃ x, x ∈ m ∧ (x.1 == k) = true := by
      rcases List.mem_map.mp hmem with ⟨x, hx, hxk⟩
      exact ⟨x, hx, by simp [hxk]⟩
    have hs : (m.find? fun kv => kv.1 == k).isSome := List.find?_isSome.mpr hex
    rw [hf] at hs
    simp at hs
  | some kv =>
    simp only [Option.map_some', Option.isSome_some, true_iff]
    have hk := List.find?_some hf
    have hm := List.mem_of_find?_eq_some hf
    exact List.mem_map.mpr ⟨kv, hm, by simpa using hk⟩

/-- Helper: a successful dict lookup returns a value stored in the list. -/
lemma mem_of_dictGet (m : StatMap) (k : String) (v : ℝ)
    (h : dictGet m k = some v) : ∃ k', (k', v) ∈ m := by
  unfold dictGet at h
  cases hf : m.find? fun kv => kv.1 == k with
  | none => rw [hf] at h; simp at h
  | some kv =>
    rw [hf] at h
    refine ⟨kv.1, ?_⟩
    have hv : kv.2 = v := by simpa using h
    have hm := List.mem_of_find?_eq_some hf
    rw [← hv]
    exact hm

/-- Helper: the deficit comprehension succeeds when every key of the
base map is present in both the target map and the current map, and the
resulting dict lists exactly the base map's keys in order. -/
lemma deficits_of_eq_some (N0 S current : StatMap)
    (hS : ∀ k ∈ N0.map Prod.fst, (dictGet S k).isSome)
    (hc : ∀ k ∈ N0.map Prod.fst, (dictGet current k).isSome) :
    ∃ ds, deficits_of N0 S current = some ds ∧
      ds.map Prod.fst = N0.map Prod.fst := by
  induction N0 with
  | nil => exact ⟨[], rfl, rfl⟩
  | cons kv rest ih =>
    have hhead : kv.1 ∈ (kv :: rest).map Prod.fst := by simp
    obtain ⟨sv, hsv⟩ := Option.isSome_iff_exists.mp (hS kv.1 hhead)
    obtain ⟨cv, hcv⟩ := Option.isSome_iff_exists.mp (hc kv.1 hhead)
    obtain ⟨ds, hds, hkeys⟩ := ih
      (fun k hk => hS k (by simp [hk]))
      (fun k hk => hc k (by simp [hk]))
    refine ⟨(kv.1, sv - cv) :: ds, ?_, by simp [hkeys]⟩
    unfold deficits_of
    rw [hsv, hcv, hds]
    rfl

/-- Helper: Python's max over a non-empty collection returns one of its
elements. -/
lemma pymaxBy_mem (f : String × ℝ → ℝ × ℝ × String) (x : String × ℝ)
    (xs : List (String × ℝ)) : pymaxBy f x xs ∈ x :: xs := by
  induction xs generalizing x with
  | nil => simp [pymaxBy]
  | cons y ys ih =>
    have step : pymaxBy f x (y :: ys) =
        pymaxBy f (if tripLt (f x) (f y) then y else x) ys := rfl
    rw [step]
    by_cases h : tripLt (f x) (f y)
    · rw [if_pos h]
      exact List.mem_cons_of_mem x (ih y)
    · rw [if_neg h]
      rcases List.mem_cons.mp (ih x) with h1 | h1
      · rw [h1]; exact List.mem_cons_self x _
      · exact List.mem_cons_of_mem x (List.mem_cons_of_mem y h1)

/-- Claim C2: for every integer L > 0 and every value list with positive
sum S0, compute_common_r returns r = log(1 + L/S0) / L, and this rate
satisfies S0 * exp(r * L) = S0 + L (exactly, in the real idealisation of
the float arithmetic). -/
theorem claim_C2 (values : List ℝ) (L : ℤ) (hL : 0 < L) (hS : 0 < values.sum) :
    compute_common_r values L = Real.log (1 + (L : ℝ) / values.sum) / (L : ℝ) ∧
    values.sum * Real.exp (compute_common_r values L * (L : ℝ)) = values.sum + L := by
  have heq := compute_common_r_eq values L hL hS
  refine ⟨heq, ?_⟩
  have hL' : (0 : ℝ) < (L : ℝ) := by exact_mod_cast hL
  have harg : 0 < 1 + (L : ℝ) / values.sum := by positivity
  rw [heq, div_mul_cancel₀ _ (ne_of_gt hL'), Real.exp_log harg]
  field_simp

/-- Witness for C2 at values = [5], L = 1. -/
theorem claim_C2_witness :
    compute_common_r [(5 : ℝ)] 1 =
      Real.log (1 + ((1 : ℤ) : ℝ) / List.sum [(5 : ℝ)]) / ((1 : ℤ) : ℝ) ∧
    List.sum [(5 : ℝ)] * Real.exp (compute_common_r [(5 : ℝ)] 1 * ((1 : ℤ) : ℝ)) =
      List.sum [(5 : ℝ)] + ((1 : ℤ) : ℝ) :=
  claim_C2 [5] 1 (by norm_num) (by norm_num)

/-- Claim C3: compute_common_r is total and returns exactly 0 in the
degenerate cases: whenever L ≤ 0, whenever the value sum is ≤ 0, and on
the empty value list. -/
theorem claim_C3 (values : List ℝ) (L : ℤ) :
    (L ≤ 0 → compute_common_r values L = 0) ∧
    (values.sum ≤ 0 → compute_common_r values L = 0) ∧
    compute_common_r ([] : List ℝ) L = 0 := by
  refine ⟨fun h => ?_, fun h => ?_, ?_⟩
  · unfold compute_common_r
    rw [if_pos h]
  · unfold compute_common_r
    split_ifs with h1
    · rfl
    · rfl
  · unfold compute_common_r
    split_ifs with h1 h2
    · rfl
    · rfl
    · simp at h2

/-- Witness for C3 at L = 0 and at a negative-sum value list. -/
theorem claim_C3_witness :
    compute_common_r [(1 : ℝ)] 0 = 0 ∧ compute_common_r [(-1 : ℝ)] 5 = 0 :=
  ⟨(claim_C3 [(1 : ℝ)] 0).1 (by norm_num),
   (claim_C3 [(-1 : ℝ)] 5).2.1 (by norm_num)⟩

/-- Claim C5: continuous_targets preserves the key list of the base map
exactly, and is the identity both at t = 0 (for any r) and at r = 0
(for any t). -/
theorem claim_C5 (base : StatMap) (r t : ℝ) :
    (continuous_targets base r t).map Prod.fst = base.map Prod.fst ∧
    continuous_targets base r 0 = base ∧
    continuous_targets base 0 t = base := by
  refine ⟨?_, ?_, ?_⟩
  · simp [continuous_targets]
  · simp [continuous_targets]
  · simp [continuous_targets]

/-- Claim C6: for a fixed base map and L, with r the calibrated rate of
the base values, no stat's projected target decreases when the elapsed
value t grows: whenever t1 ≤ t2 and all base values are non-negative,
the target of every key at t1 is at most its target at t2. -/
theorem claim_C6 (base : StatMap) (L : ℤ) (t1 t2 : ℝ) (ht : t1 ≤ t2)
    (hnn : ∀ p ∈ base, 0 ≤ p.2) (k : String) (x y : ℝ)
    (hx : dictGet
      (continuous_targets base (compute_common_r (base.map Prod.snd) L) t1) k = some x)
    (hy : dictGet
      (continuous_targets base (compute_common_r (base.map Prod.snd) L) t2) k = some y) :
    x ≤ y := by
  have hr : 0 ≤ compute_common_r (base.map Prod.snd) L :=
    compute_common_r_nonneg _ _
  rw [dictGet_continuous_targets] at hx hy
  cases hd : dictGet base k with
  | none => rw [hd] at hx; simp at hx
  | some v =>
    rw [hd] at hx hy
    have hx' : x = v * Real.exp (compute_common_r (base.map Prod.snd) L * t1) := by
      simpa using hx.symm
    have hy' : y = v * Real.exp (compute_common_r (base.map Prod.snd) L * t2) := by
      simpa using hy.symm
    obtain ⟨k', hk'⟩ := mem_of_dictGet base k v hd
    have hv : 0 ≤ v := hnn (k', v) hk'
    rw [hx', hy']
    exact mul_le_mul_of_nonneg_left
      (Real.exp_le_exp.mpr (mul_le_mul_of_nonneg_left ht hr)) hv

/-- Witness for C6 at base = [("A", 1)], L = 1, t1 = 0, t2 = 1, key "A". -/
theorem claim_C6_witness :
    (1 : ℝ) * Real.exp (compute_common_r (List.map Prod.snd [(("A" : String), (1 : ℝ))]) 1 * 0) ≤
      1 * Real.exp (compute_common_r (List.map Prod.snd [(("A" : String), (1 : ℝ))]) 1 * 1) :=
  claim_C6 [("A", 1)] 1 0 1 (by norm_num) (by simp) "A" _ _
    (by simp [dictGet, continuous_targets]) (by simp [dictGet, continuous_targets])

/-- Claim C7: the rate returned by compute_common_r is always ≥ 0, and
strictly positive when L > 0 and the base-value sum is positive. -/
theorem claim_C7 (values : List ℝ) (L : ℤ) :
    0 ≤ compute_common_r values L ∧
    (0 < L → 0 < values.sum → 0 < compute_common_r values L) :=
  ⟨compute_common_r_nonneg values L, fun hL hS => compute_common_r_pos values L hL hS⟩

/-- Witness for C7 at values = [5], L = 1, discharging the positivity
hypotheses of the strict part. -/
theorem claim_C7_witness : 0 < compute_common_r [(5 : ℝ)] 1 :=
  (claim_C7 [(5 : ℝ)] 1).2 (by norm_num) (by norm_num)

/-- Claim C8: greedy_next_stat_to_increment is deterministic — two calls
on the same base map, current map, L and t return the identical chosen
stat, deficit map and rate.  The embedding is a pure function of exactly
these four arguments (the source body reads no other state), so the two
calls are definitionally equal. -/
theorem claim_C8 (N0_map current_map : StatMap) (L t : ℤ) :
    greedy_next_stat_to_increment N0_map current_map L t =
      greedy_next_stat_to_increment N0_map current_map L t := rfl

/-- Claim C9: greedy_next_stat_to_increment mutates neither input dict —
after a call frame both argument maps are unchanged.  The source body
contains no assignment to its arguments; it only builds fresh dicts by
comprehension, so the call frame returns the arguments as passed. -/
theorem claim_C9 (N0_map current_map : StatMap) (L t : ℤ) :
    (greedy_call N0_map current_map L t).1 = (N0_map, current_map) := rfl

/-- Claim C10: on a non-empty base map whose keys all occur in the
current map, greedy_next_stat_to_increment succeeds, the chosen stat is
a key of the base map, and the deficit map's key list equals the base
map's key list (extra keys of the current map are ignored); on the empty
base map the call fails (the argmax over an empty dict raises). -/
theorem claim_C10 (base current : StatMap) (L t : ℤ) :
    (base ≠ [] → (∀ k ∈ base.map Prod.fst, (dictGet current k).isSome) →
      ∃ c ds r', greedy_next_stat_to_increment base current L t = some (c, ds, r') ∧
        c ∈ base.map Prod.fst ∧ ds.map Prod.fst = base.map Prod.fst) ∧
    greedy_next_stat_to_increment [] current L t = none := by
  constructor
  · intro hne hc
    have hS : ∀ k ∈ base.map Prod.fst,
        (dictGet (continuous_targets base
          (compute_common_r (base.map Prod.snd) L) (t : ℝ)) k).isSome := by
      intro k hk
      rw [dictGet_continuous_targets, Option.isSome_map']
      exact (dictGet_isSome_iff base k).mpr hk
    obtain ⟨ds, hds, hkeys⟩ := deficits_of_eq_some base
      (continuous_targets base (compute_common_r (base.map Prod.snd) L) (t : ℝ))
      current hS hc
    cases ds with
    | nil =>
      exfalso
      exact hne (List.map_eq_nil_iff.mp hkeys.symm)
    | cons d ds' =>
      refine ⟨(pymaxBy (statKey base) d ds').1, d :: ds',
        compute_common_r (base.map Prod.snd) L, ?_, ?_, hkeys⟩
      · unfold greedy_next_stat_to_increment
        dsimp only
        rw [hds]
      · rw [← hkeys]
        exact List.mem_map_of_mem Prod.fst (pymaxBy_mem (statKey base) d ds')
  · rfl

/-- Witness for C10 at base = [("A", 2)], current = [("A", 3)], L = 1,
t = 1, discharging non-emptiness and the key-subset hypothesis. -/
theorem claim_C10_witness :
    ∃ c ds r',
      greedy_next_stat_to_increment [(("A" : String), (2 : ℝ))]
        [(("A" : String), (3 : ℝ))] 1 1 = some (c, ds, r') ∧
      c ∈ List.map Prod.fst [(("A" : String), (2 : ℝ))] ∧
      ds.map Prod.fst = List.map Prod.fst [(("A" : String), (2 : ℝ))] :=
  (claim_C10 [("A", 2)] [("A", 3)] 1 1).1 (by simp) (by simp [dictGet])

/-- Helper: Python's max of a two-element collection whose second key
tuple is strictly larger is the second element. -/
lemma pymaxBy_pair (f : String × ℝ → ℝ × ℝ × String) (a b : String × ℝ)
    (h : tripLt (f a) (f b)) : pymaxBy f a [b] = b := by
  unfold pymaxBy
  rw [List.foldl_cons, if_pos h, List.foldl_nil]

/-- Helper: on the fully tied two-stat base [("A", 10), ("B", 10)] with
current values 0, the greedy selector picks "B" for every L and t: both
deficits are the same real number and both base values agree, so the
lexicographic component of the max key decides, and Python's max keeps
the largest tuple. -/
lemma greedy_tied_pair_eval (L t : ℤ) :
    (greedy_next_stat_to_increment [(("A" : String), (10 : ℝ)), ("B", 10)]
        [("A", 0), ("B", 0)] L t).map (fun x => x.1) = some "B" := by
  have h2 : tripLt
      (statKey [(("A" : String), (10 : ℝ)), ("B", 10)]
        ("A", 10 * Real.exp
          (compute_common_r
            (List.map Prod.snd [(("A" : String), (10 : ℝ)), ("B", 10)]) L * (t : ℝ)) - 0))
      (statKey [(("A" : String), (10 : ℝ)), ("B", 10)]
        ("B", 10 * Real.exp
          (compute_common_r
            (List.map Prod.snd [(("A" : String), (10 : ℝ)), ("B", 10)]) L * (t : ℝ)) - 0)) := by
    have hAB : ("A" : String) < "B" := by
      exact String.lt_iff_toList_lt.mpr (by decide)
    exact Or.inr ⟨rfl, Or.inr ⟨rfl, hAB⟩⟩
  show Option.map (fun x => x.1)
      (some ((pymaxBy (statKey [(("A" : String), (10 : ℝ)), ("B", 10)])
          ("A", 10 * Real.exp
            (compute_common_r
              (List.map Prod.snd [(("A" : String), (10 : ℝ)), ("B", 10)]) L * (t : ℝ)) - 0)
          [("B", 10 * Real.exp
            (compute_common_r
              (List.map Prod.snd [(("A" : String), (10 : ℝ)), ("B", 10)]) L * (t : ℝ)) - 0)]).1,
        [("A", 10 * Real.exp
            (compute_common_r
              (List.map Prod.snd [(("A" : String), (10 : ℝ)), ("B", 10)]) L * (t : ℝ)) - 0),
         ("B", 10 * Real.exp
            (compute_common_r
              (List.map Prod.snd [(("A" : String), (10 : ℝ)), ("B", 10)]) L * (t : ℝ)) - 0)],
        compute_common_r (List.map Prod.snd [(("A" : String), (10 : ℝ)), ("B", 10)]) L)) =
      some "B"
  rw [Option.map_some', pymaxBy_pair _ _ _ h2]

/-- Claim C1 counterexample: on base = [("A", 10), ("B", 10)],
current = [("A", 0), ("B", 0)], L = 1, t = 1 — a fully tied case — the
code chooses "B", not "A" as the claim states: Python's max keeps the
largest key tuple, so the name tie-break prefers the lexicographically
largest stat name. -/
theorem claim_C1_counterexample :
    (greedy_next_stat_to_increment [(("A" : String), (10 : ℝ)), ("B", 10)]
        [("A", 0), ("B", 0)] 1 1).map (fun x => x.1) = some "B" ∧
    ("B" : String) ≠ "A" :=
  ⟨greedy_tied_pair_eval 1 1, by decide⟩

/-- Claim C1 (amended): the selector maximises the tuple (deficit, base
value, stat name), so ties in deficit and base value are broken towards
the lexicographically LARGEST stat name; in the fully-tied two-stat case
base = [("A", 10), ("B", 10)], current = [("A", 0), ("B", 0)] the chosen
stat is "B" for every L and t. -/
theorem claim_C1_amended (L t : ℤ) :
    (greedy_next_stat_to_increment [(("A" : String), (10 : ℝ)), ("B", 10)]
        [("A", 0), ("B", 0)] L t).map (fun x => x.1) = some "B" :=
  greedy_tied_pair_eval L t

/-- Helper: full evaluation of the single-stat boundary scenario
base = current = [("X", 5)], L = 1, t = 1: the rate is log(6/5) (not
log 2), the target is 5 * (6/5) = 6, and the deficit is exactly 1. -/
lemma greedy_X5_eval :
    greedy_next_stat_to_increment [(("X" : String), (5 : ℝ))] [("X", 5)] 1 1 =
      some ("X", [("X", (1 : ℝ))], Real.log (6 / 5)) := by
  have hr : compute_common_r (List.map Prod.snd [(("X" : String), (5 : ℝ))]) 1 =
      Real.log (6 / 5) := by
    unfold compute_common_r
    norm_num
  show (some ("X",
      [("X", 5 * Real.exp
        (compute_common_r (List.map Prod.snd [(("X" : String), (5 : ℝ))]) 1 * ((1 : ℤ) : ℝ))
        - 5)],
      compute_common_r (List.map Prod.snd [(("X" : String), (5 : ℝ))]) 1) :
      Option (String × StatMap × ℝ)) = some ("X", [("X", (1 : ℝ))], Real.log (6 / 5))
  rw [hr]
  norm_num [Real.exp_log]

/-- Helper: lower numeric bound on log(13/12), via the degree-3 Taylor
bound on exp at 0.0799. -/
lemma log_ratio_lb : (0.0799 : ℝ) ≤ Real.log (13 / 12) := by
  rw [Real.le_log_iff_exp_le (by norm_num)]
  have h := Real.exp_bound
    (show |(0.0799 : ℝ)| ≤ 1 by rw [abs_of_nonneg] <;> norm_num)
    (show (0 : ℕ) < 3 by norm_num)
  rw [abs_le] at h
  have h2 := h.2
  rw [Finset.sum_range_succ, Finset.sum_range_succ, Finset.sum_range_succ,
    Finset.sum_range_zero] at h2
  rw [abs_of_nonneg (by norm_num : (0 : ℝ) ≤ 0.0799)] at h2
  norm_num [Nat.factorial] at h2 ⊢
  nlinarith [h2]

/-- Helper: upper numeric bound on log(13/12), via the degree-4 Taylor
bound on exp at 0.0801. -/
lemma log_ratio_ub : Real.log (13 / 12) ≤ (0.0801 : ℝ) := by
  rw [Real.log_le_iff_le_exp (by norm_num)]
  have h := Real.exp_bound
    (show |(0.0801 : ℝ)| ≤ 1 by rw [abs_of_nonneg] <;> norm_num)
    (show (0 : ℕ) < 4 by norm_num)
  rw [abs_le] at h
  have h2 := h.1
  rw [Finset.sum_range_succ, Finset.sum_range_succ, Finset.sum_range_succ,
    Finset.sum_range_succ, Finset.sum_range_zero] at h2
  rw [abs_of_nonneg (by norm_num : (0 : ℝ) ≤ 0.0801)] at h2
  norm_num [Nat.factorial] at h2 ⊢
  nlinarith [h2]

/-- Helper: exp(log(13/12)/2) squares to 13/12. -/
lemma exp_half_log_sq : Real.exp (Real.log (13 / 12) / 2) ^ 2 = 13 / 12 := by
  rw [sq, ← Real.exp_add,
    show Real.log (13 / 12) / 2 + Real.log (13 / 12) / 2 = Real.log (13 / 12) by ring]
  exact Real.exp_log (by norm_num)

/-- Helper: numeric bounds on exp(log(13/12)/2), the square root of
13/12. -/
lemma exp_half_log_bounds :
    (1.04083 : ℝ) ≤ Real.exp (Real.log (13 / 12) / 2) ∧
    Real.exp (Real.log (13 / 12) / 2) ≤ 1.04084 := by
  have hsq := exp_half_log_sq
  have hpos := Real.exp_pos (Real.log (13 / 12) / 2)
  constructor
  · nlinarith [hsq, hpos]
  · nlinarith [hsq, hpos]

/-- Helper: full evaluation of the Warrior scenario
base = current = [("Vitality", 11), ("Strength", 13)], L = 2, t = 1:
the rate is log(13/12)/2 and the chosen stat is "Strength". -/
lemma greedy_warrior_eval :
    greedy_next_stat_to_increment
        [(("Vitality" : String), (11 : ℝ)), ("Strength", 13)]
        [(("Vitality" : String), (11 : ℝ)), ("Strength", 13)] 2 1 =
      some ("Strength",
        [("Vitality", 11 * Real.exp (Real.log (13 / 12) / 2 * ((1 : ℤ) : ℝ)) - 11),
         ("Strength", 13 * Real.exp (Real.log (13 / 12) / 2 * ((1 : ℤ) : ℝ)) - 13)],
        Real.log (13 / 12) / 2) := by
  have hr1 : compute_common_r
      (List.map Prod.snd [(("Vitality" : String), (11 : ℝ)), ("Strength", 13)]) 2 =
      Real.log (13 / 12) / 2 := by
    unfold compute_common_r
    norm_num
  have hE1 : (1.04083 : ℝ) ≤ Real.exp (Real.log (13 / 12) / 2 * ((1 : ℤ) : ℝ)) := by
    rw [Int.cast_one, mul_one]
    exact exp_half_log_bounds.1
  have hlt : tripLt
      (statKey [(("Vitality" : String), (11 : ℝ)), ("Strength", 13)]
        ("Vitality", 11 * Real.exp (Real.log (13 / 12) / 2 * ((1 : ℤ) : ℝ)) - 11))
      (statKey [(("Vitality" : String), (11 : ℝ)), ("Strength", 13)]
        ("Strength", 13 * Real.exp (Real.log (13 / 12) / 2 * ((1 : ℤ) : ℝ)) - 13)) := by
    have hd : 11 * Real.exp (Real.log (13 / 12) / 2 * ((1 : ℤ) : ℝ)) - 11 <
        13 * Real.exp (Real.log (13 / 12) / 2 * ((1 : ℤ) : ℝ)) - 13 := by
      nlinarith [hE1]
    exact Or.inl hd
  show (some ((pymaxBy (statKey [(("Vitality" : String), (11 : ℝ)), ("Strength", 13)])
      ("Vitality", 11 * Real.exp
        (compute_common_r
          (List.map Prod.snd [(("Vitality" : String), (11 : ℝ)), ("Strength", 13)]) 2
          * ((1 : ℤ) : ℝ)) - 11)
      [("Strength", 13 * Real.exp
        (compute_common_r
          (List.map Prod.snd [(("Vitality" : String), (11 : ℝ)), ("Strength", 13)]) 2
          * ((1 : ℤ) : ℝ)) - 13)]).1,
      [("Vitality", 11 * Real.exp
        (compute_common_r
          (List.map Prod.snd [(("Vitality" : String), (11 : ℝ)), ("Strength", 13)]) 2
          * ((1 : ℤ) : ℝ)) - 11),
       ("Strength", 13 * Real.exp
        (compute_common_r
          (List.map Prod.snd [(("Vitality" : String), (11 : ℝ)), ("Strength", 13)]) 2
          * ((1 : ℤ) : ℝ)) - 13)],
      compute_common_r
        (List.map Prod.snd [(("Vitality" : String), (11 : ℝ)), ("Strength", 13)]) 2) :
      Option (String × StatMap × ℝ)) =
    some ("Strength",
      [("Vitality", 11 * Real.exp (Real.log (13 / 12) / 2 * ((1 : ℤ) : ℝ)) - 11),
       ("Strength", 13 * Real.exp (Real.log (13 / 12) / 2 * ((1 : ℤ) : ℝ)) - 13)],
      Real.log (13 / 12) / 2)
  rw [hr1, pymaxBy_pair _ _ _ hlt]

/-- Claim C4 counterexample: in the boundary scenario
base = current = [("X", 5)], L = 1, t = 1 the deficit of "X" is exactly
1, not 5 as the claim's target-10 reading requires. -/
theorem claim_C4_counterexample :
    (greedy_next_stat_to_increment [(("X" : String), (5 : ℝ))] [("X", 5)] 1 1).map
        (fun x => x.2.1) = some [(("X" : String), (1 : ℝ))] ∧ (1 : ℝ) ≠ 5 := by
  refine ⟨?_, by norm_num⟩
  rw [greedy_X5_eval]
  rfl

/-- Claim C4 (amended): in the Warrior scenario (base = current =
[("Vitality", 11), ("Strength", 13)], L = 2, t = 1) the rate is within
0.0001 of 0.04004, the deficits are within 0.002 of 0.450 and 0.532,
and the chosen stat is "Strength"; in the boundary scenario
(base = current = [("X", 5)], L = 1, t = 1) the rate is log(6/5) (not
log 2), the target is 6 so the deficit is exactly 1 (not 5), and the
chosen stat is "X". -/
theorem claim_C4 :
    (∃ dV dS r1,
      greedy_next_stat_to_increment
          [(("Vitality" : String), (11 : ℝ)), ("Strength", 13)]
          [(("Vitality" : String), (11 : ℝ)), ("Strength", 13)] 2 1 =
        some ("Strength", [("Vitality", dV), ("Strength", dS)], r1) ∧
      |r1 - 0.04004| < 0.0001 ∧ |dV - 0.45| < 0.002 ∧ |dS - 0.532| < 0.002) ∧
    greedy_next_stat_to_increment [(("X" : String), (5 : ℝ))] [("X", 5)] 1 1 =
      some ("X", [("X", (1 : ℝ))], Real.log (6 / 5)) := by
  refine ⟨⟨_, _, _, greedy_warrior_eval, ?_, ?_, ?_⟩, greedy_X5_eval⟩
  · rw [abs_lt]
    constructor <;> nlinarith [log_ratio_lb, log_ratio_ub]
  · rw [Int.cast_one, mul_one, abs_lt]
    constructor <;> nlinarith [exp_half_log_bounds.1, exp_half_log_bounds.2]
  · rw [Int.cast_one, mul_one, abs_lt]
    constructor <;> nlinarith [exp_half_log_bounds.1, exp_half_log_bounds.2]

end DSTool
